import Mathlib

/-
Verification of the resource abstraction core of the beets web plugin
(beetsplug/web/__init__.py): the entity projection _rep, the streaming
JSON encoder json_generator, the id-list extraction _extract_ids, and the
three responder factories resource, resource_query and resource_list.

The Python code is embedded shallowly: beets records become a sum type
over the two kinds the code branches on (Item, Album) plus a fallthrough
kind; Python dicts become insertion-ordered association lists; the
fallible file-size probe becomes a function returning Option Nat; and the
generator becomes the list of yielded string fragments.
-/

/-- JSON-representable values, the codomain of record fields and of the
projection. -/
inductive JVal where
  | null
  | str (s : String)
  | int (n : Int)
  | arr (elts : List JVal)
  | obj (fields : List (String × JVal))
  deriving Repr

/-- A Python dict as produced by dict(obj): an insertion-ordered
association list, whose keys are distinct in any genuine dict. -/
abbrev Mapping := List (String × JVal)

/-- A beets record as seen by _rep. The isinstance branches of _rep
distinguish beets.library.Item (which carries a filesystem path) and
beets.library.Album (whose items() call yields its tracks); anything
else falls through both branches. -/
inductive Record where
  | item (path : String) (fields : Mapping)
  | album (fields : Mapping) (tracks : List Record)
  | other (fields : Mapping)
  deriving Repr

/-- Python del d[k]. On a genuine dict the key occurs at most once; the
beets Item and Album schemas always contain the keys the code deletes,
so the KeyError case of del never arises and the operation is total
here. -/
def dictDel (d : Mapping) (k : String) : Mapping :=
  d.filter (fun p => p.1 != k)

/-- Python k in d. -/
def dictHasKey (d : Mapping) (k : String) : Bool :=
  d.any (fun p => p.1 == k)

/-- Python d[k] lookup, first matching entry. -/
def dictLookup (d : Mapping) (k : String) : Option JVal :=
  match d with
  | [] => none
  | p :: rest => if p.1 == k then some p.2 else dictLookup rest k

/-- Python d[k] = v: replace the value of an existing key in place,
otherwise append the new entry. -/
def dictSet (d : Mapping) (k : String) (v : JVal) : Mapping :=
  if dictHasKey d k then d.map (fun p => if p.1 == k then (k, v) else p)
  else d ++ [(k, v)]

/-- String escaping used by the JSON serializer for quotes and
backslashes. -/
def jsonEscapeChar (c : Char) : String :=
  if c = '"' then "\\\"" else if c = '\\' then "\\\\" else String.singleton c

/-- Escape a string for inclusion in a JSON string literal. -/
def jsonEscape (s : String) : String :=
  String.join (s.toList.map jsonEscapeChar)

mutual
/-- json.dumps of a single JSON value, with the default Python
separators (comma-space and colon-space). -/
def dumpsJVal : JVal → String
  | JVal.null => "null"
  | JVal.str s => "\"" ++ jsonEscape s ++ "\""
  | JVal.int n => toString n
  | JVal.arr l => "[" ++ dumpsArr l ++ "]"
  | JVal.obj m => "\x7b" ++ dumpsObj m ++ "\x7d"

/-- json.dumps of the elements of a JSON array. -/
def dumpsArr : List JVal → String
  | [] => ""
  | [v] => dumpsJVal v
  | v :: rest => dumpsJVal v ++ ", " ++ dumpsArr rest

/-- json.dumps of the entries of a JSON object. -/
def dumpsObj : List (String × JVal) → String
  | [] => ""
  | [(k, v)] => "\"" ++ jsonEscape k ++ "\": " ++ dumpsJVal v
  | (k, v) :: rest => "\"" ++ jsonEscape k ++ "\": " ++ dumpsJVal v ++ ", " ++ dumpsObj rest
end

/-- The value a projection contributes to an enclosing JSON structure: a
mapping becomes an object, the Python None returned for unrecognized
records becomes null. -/
def jvalOfRep : Option Mapping → JVal
  | some m => JVal.obj m
  | none => JVal.null

/-- The file-size probe of _rep: os.path.getsize wrapped in
try/except OSError, which downgrades a failed stat to 0. The
filesystem is a function from path to Option Nat, where none models an
unreadable or missing file. -/
def pySize (fs : String → Option Nat) (path : String) : Int :=
  match fs path with
  | some b => (b : Int)
  | none => 0

mutual
/-- _rep(obj, expand=False): copy the record fields into a fresh dict;
for an Item delete path and add size from the probe; for an Album
delete artpath and, when expand is set, add items holding the
non-expanded projections of the album tracks; any other record falls
through both isinstance branches and yields None. -/
def _rep (fs : String → Option Nat) : Record → Bool → Option Mapping
  | Record.item path fields, _ =>
    let out := dictDel fields "path"
    let size : Int := pySize fs path
    some (dictSet out "size" (JVal.int size))
  | Record.album fields tracks, expand =>
    let out := dictDel fields "artpath"
    if expand then some (dictSet out "items" (JVal.arr (repList fs tracks)))
    else some out
  | Record.other _, _ => none

/-- The list comprehension of the expand branch of _rep, projecting each
album track without expansion. -/
def repList (fs : String → Option Nat) : List Record → List JVal
  | [] => []
  | t :: ts => jvalOfRep (_rep fs t false) :: repList fs ts
end

/-- json.dumps applied to the result of _rep, as done inside
json_generator; dumps of None is the literal null. -/
def pyDumpsEntity (r : Option Mapping) : String :=
  match r with
  | some m => dumpsJVal (JVal.obj m)
  | none => "null"

/-- The loop body of json_generator: the first flag suppresses the comma
before the first entity, every later entity is preceded by one. -/
def genBody (fs : String → Option Nat) : List Record → Bool → List String
  | [], _ => []
  | item :: rest, first =>
    (if first then [] else [","]) ++
      (pyDumpsEntity (_rep fs item false) :: genBody fs rest false)

/-- json_generator(items, root): the sequence of string fragments the
generator yields, namely the opening fragment, the comma-separated
entity dumps, and the closing fragment. -/
def json_generator (fs : String → Option Nat) (items : List Record) (root : String) :
    List String :=
  ("\x7b\"" ++ root ++ "\":[") :: (genBody fs items true ++ ["]\x7d"])

/-- Concatenation of all fragments yielded by a generator. -/
def concatAll : List String → String
  | [] => ""
  | s :: rest => s ++ concatAll rest

/-- Join strings with a comma between consecutive elements and nothing
else. -/
def commaJoin : List String → String
  | [] => ""
  | [s] => s
  | s :: rest => s ++ "," ++ commaJoin rest

/-- The eager serialization the specification describes for the encoder:
the root key wrapping a JSON array holding the projected entities, with
commas only between entities. Stated from the specification text, to be
compared with the concatenated generator output. -/
def spec_eager_serialization (fs : String → Option Nat) (items : List Record)
    (root : String) : String :=
  "\x7b\"" ++ root ++ "\":[" ++
    commaJoin (items.map (fun it => pyDumpsEntity (_rep fs it false))) ++ "]\x7d"

/-- Python single-character str.split on a list of characters: every
separator occurrence ends a segment, empty segments are kept, and the
empty input gives one empty segment. -/
def splitOnChar (sep : Char) : List Char → List (List Char)
  | [] => [[]]
  | c :: rest =>
    if c = sep then [] :: splitOnChar sep rest
    else
      match splitOnChar sep rest with
      | [] => [[c]]
      | grp :: grps => (c :: grp) :: grps

/-- Python s.split(sep) for a one-character separator, as used on commas
in _extract_ids and on slashes in resource_query. -/
def pySplit (s : String) (sep : Char) : List String :=
  (splitOnChar sep s.toList).map (fun cs => String.mk cs)

/-- The whitespace characters Python int() tolerates around a numeral. -/
def isPySpace (c : Char) : Bool :=
  c = ' ' || c = '\t' || c = '\n' || c = '\r' || c = '\x0b' || c = '\x0c'

/-- Decimal value of a digit run. -/
def digitsVal (ds : List Char) : Nat :=
  ds.foldl (fun acc c => acc * 10 + (c.toNat - '0'.toNat)) 0

/-- Python int(s) on a string: optional surrounding whitespace, an
optional sign, and a nonempty digit run; anything else raises
ValueError, modelled as none. -/
def pyParseInt (s : String) : Option Int :=
  let cs := (s.toList).dropWhile isPySpace
  let signAndRest : Int × List Char :=
    match cs with
    | '+' :: rest => (1, rest)
    | '-' :: rest => (-1, rest)
    | rest => (1, rest)
  let digits := signAndRest.2.takeWhile Char.isDigit
  let rest := signAndRest.2.dropWhile Char.isDigit
  if digits.isEmpty then none
  else if rest.all isPySpace then some (signAndRest.1 * (digitsVal digits)) else none

/-- The loop of _extract_ids: append each token parsed by int, swallow
the ValueError of a malformed token. -/
def extractGo : List String → List Int
  | [] => []
  | tok :: rest =>
    match pyParseInt tok with
    | some n => n :: extractGo rest
    | none => extractGo rest

/-- _extract_ids(string_ids): split on commas and keep the
integer-parseable tokens in order. -/
def _extract_ids (string_ids : String) : List Int :=
  extractGo (pySplit string_ids ',')

/-- The three response shapes a responder can produce: abort(404),
flask.jsonify of one projected entity, or a streamed response built from
generator fragments. -/
inductive Response where
  | notFound
  | single (body : Option Mapping)
  | streamed (fragments : List String)

/-- The responder built by the resource(name) factory: extract the ids,
look each up, drop the falsy (absent) results, then pick the response
shape by the number of survivors. -/
def resource_responder (fs : String → Option Nat) (name : String)
    (retriever : Int → Option Record) (entity_ids : String) : Response :=
  let ids := _extract_ids entity_ids
  let entities := ids.map retriever
  let entities2 := entities.filterMap (fun e => e)
  if h : entities2.length = 1 then
    Response.single (_rep fs (entities2.get ⟨0, by omega⟩) false)
  else if entities2.length ≠ 0 then
    Response.streamed (json_generator fs entities2 name)
  else
    Response.notFound

/-- The responder built by the resource_query(name) factory: split the
query on slashes, hand the segments to the query function, and stream
the returned entities under the results root. -/
def resource_query_responder (fs : String → Option Nat) (name : String)
    (query_func : List String → List Record) (query : String) : Response :=
  Response.streamed (json_generator fs (query_func (pySplit query '/')) "results")

/-- The backend library handle g.lib with its two collections. -/
structure Lib where
  items : List Record
  albums : List Record

/-- The decorated all_items route body, returning g.lib.items(). -/
def all_items (lib : Lib) : List Record := lib.items

/-- The decorated all_albums route body, returning g.lib.albums(). -/
def all_albums (lib : Lib) : List Record := lib.albums

/-- The responder built by the resource_list(name) factory. Its body
streams g.lib.items() and never calls the decorated function it was
given. -/
def resource_list_responder (fs : String → Option Nat) (name : String)
    (list_all : Lib → List Record) (lib : Lib) : Response :=
  Response.streamed (json_generator fs lib.items name)

/-- A store of Python dict objects: addresses map to current contents,
and next is the first unallocated address. Used to express that _rep
mutates only the fresh dict it allocates. -/
structure Heap where
  data : Nat → Mapping
  next : Nat

/-- Allocate a new dict holding m, returning the grown heap and the new
address. -/
def Heap.alloc (h : Heap) (m : Mapping) : Heap × Nat :=
  (⟨fun a => if a = h.next then m else h.data a, h.next + 1⟩, h.next)

/-- Overwrite the contents of the dict at address r. -/
def Heap.write (h : Heap) (r : Nat) (m : Mapping) : Heap :=
  ⟨fun a => if a = r then m else h.data a, h.next⟩

/-- A record whose fields dict lives in the heap, for the mutation
analysis of _rep. -/
inductive RecordH where
  | item (path : String) (fields : Nat)
  | album (fields : Nat) (tracks : List RecordH)
  | other (fields : Nat)

mutual
/-- _rep replayed against the dict store: out = dict(obj) allocates a
fresh dict copying the record fields, and every del and key assignment
of the source is a write to that fresh address. -/
def repH (fs : String → Option Nat) (h : Heap) : RecordH → Bool → Heap × Option Nat
  | RecordH.item path fields, _ =>
    let p := Heap.alloc h (h.data fields)
    let h1 := p.1
    let out := p.2
    let h2 := Heap.write h1 out (dictDel (h1.data out) "path")
    let size : Int := pySize fs path
    let h3 := Heap.write h2 out (dictSet (h2.data out) "size" (JVal.int size))
    (h3, some out)
  | RecordH.album fields tracks, expand =>
    let p := Heap.alloc h (h.data fields)
    let h1 := p.1
    let out := p.2
    let h2 := Heap.write h1 out (dictDel (h1.data out) "artpath")
    if expand then
      let q := repListH fs h2 tracks
      let h4 := Heap.write q.1 out (dictSet (q.1.data out) "items" (JVal.arr q.2))
      (h4, some out)
    else (h2, some out)
  | RecordH.other _, _ => (h, none)

/-- The expand list comprehension replayed against the dict store. -/
def repListH (fs : String → Option Nat) (h : Heap) : List RecordH → Heap × List JVal
  | [] => (h, [])
  | t :: ts =>
    let q := repH fs h t false
    let v := match q.2 with
      | some a => JVal.obj (q.1.data a)
      | none => JVal.null
    let r := repListH fs q.1 ts
    (r.1, v :: r.2)
end

/-- A filesystem on which every stat fails, for concrete instances. -/
def fsNone : String → Option Nat := fun _ => none

/-- A concrete album record with an artwork path and no tracks. -/
def demoAlbum : Record := Record.album [("artpath", JVal.str "art")] []

/-- A concrete library whose item collection is empty while its album
collection is not, separating the two collections observably. -/
def demoLib : Lib := { items := [], albums := [demoAlbum] }

/-- A one-object heap for concrete instances of the mutation theorem. -/
def heap0 : Heap := { data := fun _ => [("path", JVal.str "p")], next := 1 }

-- ================= theorems =================

theorem dictHasKey_dictDel_self (d : Mapping) (k : String) :
    dictHasKey (dictDel d k) k = false := by
  induction d with
  | nil => rfl
  | cons p rest ih =>
    by_cases hp : p.1 = k
    · simp [dictDel, dictHasKey, List.filter_cons, hp, ih]
    · simp [dictDel, dictHasKey, List.filter_cons, hp, ih]

theorem dictHasKey_dictDel_of_false (d : Mapping) (k0 k : String) :
    dictHasKey d k = false → dictHasKey (dictDel d k0) k = false := by
  induction d with
  | nil => intro _; rfl
  | cons p rest ih =>
    intro hd
    simp only [dictHasKey, List.any_cons, Bool.or_eq_false_iff] at hd
    by_cases hp : p.1 = k0
    · simpa [dictDel, dictHasKey, List.filter_cons, hp] using ih hd.2
    · simpa [dictDel, dictHasKey, List.filter_cons, hp, hd.1] using ih hd.2

theorem dictHasKey_cons (p : String × JVal) (rest : Mapping) (k : String) :
    dictHasKey (p :: rest) k = ((p.1 == k) || dictHasKey rest k) := rfl

theorem dictLookup_cons (p : String × JVal) (rest : Mapping) (k : String) :
    dictLookup (p :: rest) k = if p.1 == k then some p.2 else dictLookup rest k := rfl

theorem dictLookup_map_set (d : Mapping) (k : String) (v : JVal) :
    dictLookup (d.map (fun p => if p.1 == k then (k, v) else p)) k =
      if dictHasKey d k then some v else none := by
  induction d with
  | nil => rfl
  | cons p rest ih =>
    by_cases hp : (p.1 == k) = true
    · rw [List.map_cons, dictHasKey_cons, hp]
      simp [dictLookup_cons]
    · have hp2 : (p.1 == k) = false := by simpa using hp
      rw [List.map_cons, dictHasKey_cons, hp2]
      simp only [Bool.false_eq_true, if_false, Bool.false_or, dictLookup_cons, hp2]
      exact ih

theorem dictLookup_append_of_false (d : Mapping) (k : String) (v : JVal) :
    dictHasKey d k = false → dictLookup (d ++ [(k, v)]) k = some v := by
  induction d with
  | nil => intro _; simp [dictLookup]
  | cons p rest ih =>
    intro hd
    simp only [dictHasKey, List.any_cons, Bool.or_eq_false_iff] at hd
    simpa [dictLookup, hd.1] using ih hd.2

theorem dictLookup_dictSet_self (d : Mapping) (k : String) (v : JVal) :
    dictLookup (dictSet d k v) k = some v := by
  by_cases hk : dictHasKey d k = true
  · simp only [dictSet, hk, if_true]
    rw [dictLookup_map_set]
    simp [hk]
  · have hk2 : dictHasKey d k = false := by simpa using hk
    simp only [dictSet, hk2, Bool.false_eq_true, if_false]
    exact dictLookup_append_of_false d k v hk2

theorem dictHasKey_map_set_other (d : Mapping) (k : String) (v : JVal) (k2 : String)
    (hk : k2 ≠ k) :
    dictHasKey (d.map (fun p => if p.1 == k then (k, v) else p)) k2 = dictHasKey d k2 := by
  induction d with
  | nil => rfl
  | cons p rest ih =>
    by_cases hp : (p.1 == k) = true
    · have hpeq : p.1 = k := by simpa using hp
      have hkk : (k == k2) = false := beq_eq_false_iff_ne.mpr (Ne.symm hk)
      have hpk2 : (p.1 == k2) = false := by
        rw [hpeq]
        exact hkk
      rw [List.map_cons, hp]
      simp only [if_true, dictHasKey_cons, hkk, hpk2, Bool.false_or]
      exact ih
    · have hp2 : (p.1 == k) = false := by simpa using hp
      rw [List.map_cons, hp2]
      simp only [Bool.false_eq_true, if_false, dictHasKey_cons]
      rw [ih]

theorem dictHasKey_dictSet_other (d : Mapping) (k : String) (v : JVal) (k2 : String)
    (hk : k2 ≠ k) : dictHasKey (dictSet d k v) k2 = dictHasKey d k2 := by
  by_cases hd : dictHasKey d k = true
  · simp only [dictSet, hd, if_true]
    exact dictHasKey_map_set_other d k v k2 hk
  · have hd2 : dictHasKey d k = false := by simpa using hd
    simp only [dictSet, hd2, Bool.false_eq_true, if_false]
    simp [dictHasKey, List.any_append, Ne.symm hk]

theorem repList_eq_map (fs : String → Option Nat) (ts : List Record) :
    repList fs ts = ts.map (fun t => jvalOfRep (_rep fs t false)) := by
  induction ts with
  | nil => simp [repList]
  | cons t rest ih => simp [repList, ih]

theorem alloc_data_lt (h : Heap) (m : Mapping) (a : Nat) (ha : a < h.next) :
    ((Heap.alloc h m).1).data a = h.data a := by
  simp [Heap.alloc, Nat.ne_of_lt ha]

theorem alloc_next (h : Heap) (m : Mapping) : ((Heap.alloc h m).1).next = h.next + 1 := rfl

theorem alloc_snd (h : Heap) (m : Mapping) : (Heap.alloc h m).2 = h.next := rfl

theorem write_data_ne (h : Heap) (r : Nat) (m : Mapping) (a : Nat) (ha : a ≠ r) :
    (Heap.write h r m).data a = h.data a := by
  simp [Heap.write, ha]

theorem write_next (h : Heap) (r : Nat) (m : Mapping) : (Heap.write h r m).next = h.next := rfl

mutual
theorem repH_frame (fs : String → Option Nat) (h : Heap) (r : RecordH) (e : Bool) :
    (∀ a, a < h.next → ((repH fs h r e).1).data a = h.data a) ∧
      h.next ≤ ((repH fs h r e).1).next := by
  cases r with
  | item path fields =>
    constructor
    · intro a ha
      have hne : a ≠ (Heap.alloc h (h.data fields)).2 := by rw [alloc_snd]; omega
      simp only [repH]
      rw [write_data_ne _ _ _ _ hne, write_data_ne _ _ _ _ hne, alloc_data_lt _ _ _ ha]
    · simp only [repH]
      rw [write_next, write_next, alloc_next]
      omega
  | album fields tracks =>
    have ih := repListH_frame fs (Heap.write (Heap.alloc h (h.data fields)).1
      (Heap.alloc h (h.data fields)).2
      (dictDel (((Heap.alloc h (h.data fields)).1).data (Heap.alloc h (h.data fields)).2)
        "artpath")) tracks
    have hmid : (Heap.write (Heap.alloc h (h.data fields)).1
        (Heap.alloc h (h.data fields)).2
        (dictDel (((Heap.alloc h (h.data fields)).1).data (Heap.alloc h (h.data fields)).2)
          "artpath")).next = h.next + 1 := by
      rw [write_next, alloc_next]
    constructor
    · intro a ha
      have hne : a ≠ (Heap.alloc h (h.data fields)).2 := by rw [alloc_snd]; omega
      cases e with
      | false =>
        simp only [repH, Bool.false_eq_true, if_false]
        rw [write_data_ne _ _ _ _ hne, alloc_data_lt _ _ _ ha]
      | true =>
        simp only [repH, if_true]
        rw [write_data_ne _ _ _ _ hne, ih.1 a (by omega),
          write_data_ne _ _ _ _ hne, alloc_data_lt _ _ _ ha]
    · cases e with
      | false =>
        simp only [repH, Bool.false_eq_true, if_false]
        rw [write_next, alloc_next]
        omega
      | true =>
        simp only [repH, if_true]
        rw [write_next]
        have := ih.2
        omega
  | other fields =>
    constructor
    · intro a _
      simp only [repH]
    · simp only [repH]
      omega

theorem repListH_frame (fs : String → Option Nat) (h : Heap) (ts : List RecordH) :
    (∀ a, a < h.next → ((repListH fs h ts).1).data a = h.data a) ∧
      h.next ≤ ((repListH fs h ts).1).next := by
  cases ts with
  | nil =>
    constructor
    · intro a _
      simp only [repListH]
    · simp only [repListH]
      omega
  | cons t rest =>
    have ih1 := repH_frame fs h t false
    have ih2 := repListH_frame fs (repH fs h t false).1 rest
    constructor
    · intro a ha
      simp only [repListH]
      have ha2 : a < ((repH fs h t false).1).next := Nat.lt_of_lt_of_le ha ih1.2
      rw [ih2.1 a ha2, ih1.1 a ha]
    · simp only [repListH]
      exact Nat.le_trans ih1.2 ih2.2
end

theorem concatAll_append (l1 l2 : List String) :
    concatAll (l1 ++ l2) = concatAll l1 ++ concatAll l2 := by
  induction l1 with
  | nil => simp [concatAll]
  | cons s rest ih => simp [concatAll, ih, String.append_assoc]

theorem genBody_false_concat (fs : String → Option Nat) (items : List Record) :
    concatAll (genBody fs items false) =
      concatAll ((items.map (fun it => pyDumpsEntity (_rep fs it false))).map
        (fun s => "," ++ s)) := by
  induction items with
  | nil => simp [genBody, concatAll]
  | cons it rest ih => simp [genBody, concatAll, ih, String.append_assoc]

theorem comma_prefixed_concat (l : List String) (s : String) :
    s ++ concatAll (l.map (fun t => "," ++ t)) = commaJoin (s :: l) := by
  induction l generalizing s with
  | nil => simp [concatAll, commaJoin, String.append_empty]
  | cons t rest ih =>
    have hit : commaJoin (s :: t :: rest) = s ++ "," ++ commaJoin (t :: rest) := rfl
    rw [hit, ← ih t]
    simp [concatAll, String.append_assoc]

theorem genBody_true_concat (fs : String → Option Nat) (items : List Record) :
    concatAll (genBody fs items true) =
      commaJoin (items.map (fun it => pyDumpsEntity (_rep fs it false))) := by
  cases items with
  | nil => rfl
  | cons it rest =>
    show pyDumpsEntity (_rep fs it false) ++ concatAll (genBody fs rest false) = _
    rw [genBody_false_concat, List.map_cons]
    exact comma_prefixed_concat _ _

theorem json_generator_concat (fs : String → Option Nat) (items : List Record)
    (root : String) :
    concatAll (json_generator fs items root) = spec_eager_serialization fs items root := by
  show ("\x7b\"" ++ root ++ "\":[") ++ concatAll (genBody fs items true ++ ["]\x7d"]) = _
  rw [concatAll_append, genBody_true_concat]
  show _ ++ (_ ++ ("]\x7d" ++ "")) = _
  rw [String.append_empty]
  simp [spec_eager_serialization, String.append_assoc]

theorem extractGo_eq_filterMap (ts : List String) :
    extractGo ts = ts.filterMap pyParseInt := by
  induction ts with
  | nil => rfl
  | cons t rest ih =>
    cases hp : pyParseInt t <;> simp [extractGo, hp, ih, List.filterMap_cons]

/-- Claim C1: the responder produced by resource(name) obeys the
response-shape rule: zero surviving entities yield a 404, exactly one
yields that entity as a bare projected object, and two or more yield the
streaming encoder output under the fixed root name. -/
theorem resource_responder_shape (fs : String → Option Nat) (name : String)
    (retriever : Int → Option Record) (entity_ids : String) :
    resource_responder fs name retriever entity_ids =
      match ((_extract_ids entity_ids).map retriever).filterMap (fun e => e) with
      | [] => Response.notFound
      | [e] => Response.single (_rep fs e false)
      | es => Response.streamed (json_generator fs es name) := by
  unfold resource_responder
  cases hes : ((_extract_ids entity_ids).map retriever).filterMap (fun e => e) with
  | nil => simp [hes]
  | cons e rest =>
    cases rest with
    | nil => simp [hes]
    | cons e2 rest2 => simp [hes]

/-- Claim C2: concatenating all fragments yielded by json_generator
equals the eager serialization of the projected entity list under the
root key, with commas only between entities, and the empty sequence
under the items root concatenates to the empty wrapped array. -/
theorem json_generator_spec (fs : String → Option Nat) (items : List Record)
    (root : String) :
    concatAll (json_generator fs items root) = spec_eager_serialization fs items root ∧
      concatAll (json_generator fs [] "items") = "\x7b\"items\":[]\x7d" :=
  ⟨json_generator_concat fs items root, rfl⟩

/-- Claim C3: _extract_ids returns exactly the comma-separated tokens
that parse as Python integers, in input order, silently dropping the
rest; the empty string gives the empty list and no input errors. -/
theorem extract_ids_spec :
    (∀ s : String, _extract_ids s = (pySplit s ',').filterMap pyParseInt) ∧
      _extract_ids "" = [] ∧ _extract_ids "3,x,5,,7" = [3, 5, 7] :=
  ⟨fun _ => extractGo_eq_filterMap _, rfl, rfl⟩

/-- Claim C4: the responder produced by resource_list streams
g.lib.items() and ignores the decorated collection function, so the
album collection endpoint streams the item collection instead of the
albums returned by all_albums. -/
theorem resource_list_ignores_all_fn :
    resource_list_responder fsNone "albums" all_albums demoLib =
      Response.streamed (json_generator fsNone demoLib.items "albums") ∧
    resource_list_responder fsNone "albums" all_albums demoLib ≠
      Response.streamed (json_generator fsNone (all_albums demoLib) "albums") := by
  constructor
  · rfl
  · intro hcontra
    have hlen := congrArg
      (fun r => match r with
        | Response.streamed l => l.length
        | _ => 0) hcontra
    simp [resource_list_responder, json_generator, genBody, all_albums, demoLib,
      demoAlbum] at hlen

/-- Claim C5 counterexample: the id list 3,3 parses to the list with 3
twice, so the result of _extract_ids is not deduplicated. -/
theorem extract_ids_not_dedup :
    _extract_ids "3,3" = [3, 3] ∧ ¬ (_extract_ids "3,3").Nodup :=
  ⟨rfl, by decide⟩

/-- Claim C5 amended: _extract_ids preserves first-to-last input order
and multiplicity: its output is exactly the list of integer-parseable
comma tokens in input order, so each identifier occurs once per token
that denotes it and duplicates are retained. -/
theorem extract_ids_order_and_multiplicity (s : String) (n : Int) :
    _extract_ids s = (pySplit s ',').filterMap pyParseInt ∧
      (_extract_ids s).count n = ((pySplit s ',').filterMap pyParseInt).count n := by
  have horder : _extract_ids s = (pySplit s ',').filterMap pyParseInt :=
    extractGo_eq_filterMap (pySplit s ',')
  exact ⟨horder, by rw [horder]⟩

/-- Claim C6: projecting a Track removes the path field and adds a size
field holding the byte length of the backing file, with a failed probe
downgraded to 0 and never an error, so the output has no path key and a
nonnegative size. -/
theorem track_projection_spec (fs : String → Option Nat) (path : String)
    (fields : Mapping) (expand : Bool) :
    ∃ out : Mapping,
      _rep fs (Record.item path fields) expand = some out ∧
      dictHasKey out "path" = false ∧
      ∃ n : Int, dictLookup out "size" = some (JVal.int n) ∧ 0 ≤ n ∧ n = pySize fs path := by
  refine ⟨dictSet (dictDel fields "path") "size" (JVal.int (pySize fs path)), ?_, ?_, ?_⟩
  · simp only [_rep]
  · rw [dictHasKey_dictSet_other _ _ _ _ (by decide), dictHasKey_dictDel_self]
  · refine ⟨pySize fs path, dictLookup_dictSet_self _ _ _, ?_, rfl⟩
    unfold pySize
    cases fs path <;> simp

/-- Claim C7: projecting a Release removes the artpath field; with
expand set the items key holds the ordered non-expanded projections of
the release tracks, and without expand there is no items key. -/
theorem release_projection_spec (fs : String → Option Nat) (fields : Mapping)
    (tracks : List Record) (hfree : dictHasKey fields "items" = false) :
    (∃ out : Mapping, _rep fs (Record.album fields tracks) true = some out ∧
      dictHasKey out "artpath" = false ∧
      dictLookup out "items" =
        some (JVal.arr (tracks.map (fun t => jvalOfRep (_rep fs t false))))) ∧
    (∃ out : Mapping, _rep fs (Record.album fields tracks) false = some out ∧
      dictHasKey out "artpath" = false ∧
      dictHasKey out "items" = false) := by
  constructor
  · refine ⟨dictSet (dictDel fields "artpath") "items" (JVal.arr (repList fs tracks)),
      ?_, ?_, ?_⟩
    · simp only [_rep, if_true]
    · rw [dictHasKey_dictSet_other _ _ _ _ (by decide), dictHasKey_dictDel_self]
    · rw [dictLookup_dictSet_self, repList_eq_map]
  · refine ⟨dictDel fields "artpath", ?_, ?_, ?_⟩
    · simp only [_rep, Bool.false_eq_true, if_false]
    · exact dictHasKey_dictDel_self _ _
    · exact dictHasKey_dictDel_of_false _ _ _ hfree

/-- Claim C7 witness: the Release projection contract instantiated on a
concrete album with one track and an album dict without an items key. -/
theorem release_projection_spec_witness :
    dictHasKey ([("artpath", JVal.str "art")] : Mapping) "items" = false ∧
      ((∃ out : Mapping,
        _rep fsNone (Record.album [("artpath", JVal.str "art")]
          [Record.item "p" [("path", JVal.str "p")]]) true = some out ∧
        dictHasKey out "artpath" = false ∧
        dictLookup out "items" =
          some (JVal.arr ([Record.item "p" [("path", JVal.str "p")]].map
            (fun t => jvalOfRep (_rep fsNone t false))))) ∧
      (∃ out : Mapping,
        _rep fsNone (Record.album [("artpath", JVal.str "art")]
          [Record.item "p" [("path", JVal.str "p")]]) false = some out ∧
        dictHasKey out "artpath" = false ∧
        dictHasKey out "items" = false)) :=
  ⟨by decide,
    release_projection_spec fsNone [("artpath", JVal.str "art")]
      [Record.item "p" [("path", JVal.str "p")]] (by decide)⟩

/-- Claim C8: the projection never mutates the source record: replayed
against the dict store, _rep writes only to the dict it freshly
allocates, so every previously allocated address keeps its contents. -/
theorem projection_no_mutation (fs : String → Option Nat) (h : Heap) (r : RecordH)
    (expand : Bool) (a : Nat) (ha : a < h.next) :
    ((repH fs h r expand).1).data a = h.data a :=
  (repH_frame fs h r expand).1 a ha

/-- Claim C8 witness: the mutation-freedom theorem instantiated on a
concrete one-dict heap holding an item record. -/
theorem projection_no_mutation_witness :
    0 < heap0.next ∧
      ((repH fsNone heap0 (RecordH.item "p" 0) false).1).data 0 = heap0.data 0 :=
  ⟨by decide, projection_no_mutation fsNone heap0 (RecordH.item "p" 0) false 0 (by decide)⟩

/-- Claim C9: the responder produced by resource_query splits the raw
query on slashes, passes the segments verbatim to the backend query
function, and streams whatever it returns under the results root, the
concatenated stream being the eager serialization of that sequence. -/
theorem query_responder_spec (fs : String → Option Nat) (name : String)
    (query_func : List String → List Record) (query : String) :
    resource_query_responder fs name query_func query =
      Response.streamed (json_generator fs (query_func (pySplit query '/')) "results") ∧
    concatAll (json_generator fs (query_func (pySplit query '/')) "results") =
      spec_eager_serialization fs (query_func (pySplit query '/')) "results" :=
  ⟨rfl, json_generator_concat _ _ _⟩

/-- Claim C10: a record that is neither an Item nor an Album falls
through both isinstance branches of _rep, which therefore returns None,
and serializing that projection downstream produces the JSON literal
null rather than an object. -/
theorem other_projection_is_none (fs : String → Option Nat) (fields : Mapping)
    (expand : Bool) :
    _rep fs (Record.other fields) expand = none ∧
      pyDumpsEntity (_rep fs (Record.other fields) expand) = "null" := by
  have h : _rep fs (Record.other fields) expand = none := by simp only [_rep]
  exact ⟨h, by rw [h]; rfl⟩
